import Mathlib

/-!
Verification of the `mcp_example_resources` resource-provider package.

Python strings are modelled as `List Char`; Python dicts that are only
built and iterated in insertion order are modelled as association lists.
All definitions are translated from `src/mcp_example_resources/base.py`,
`publichttpresource.py` and `privateresourceexample.py`.
-/

/-- The opening brace character. -/
def lb : Char := '\x7b'

/-- The closing brace character. -/
def rb : Char := '\x7d'

/-- Fuel-indexed core of Python's `str.replace` for a non-empty pattern:
replaces the leftmost occurrence of `pat`, skips past it, and continues on
the remainder; any fuel of at least `s.length` is enough to finish the scan. -/
def replaceFuel (pat rep : List Char) : Nat → List Char → List Char
  | _, [] => []
  | 0, s => s
  | Nat.succ n, c :: rest =>
    if pat.isPrefixOf (c :: rest) then rep ++ replaceFuel pat rep n ((c :: rest).drop pat.length)
    else c :: replaceFuel pat rep n rest

/-- Python's `str.replace(pat, rep)` (all leftmost non-overlapping occurrences;
for the empty pattern Python inserts `rep` between all characters and at both
ends, e.g. `"ab".replace("", "X") = "XaXbX"`). -/
def pyReplace (s pat rep : List Char) : List Char :=
  if pat.isEmpty then rep ++ s.flatMap (fun c => c :: rep)
  else replaceFuel pat rep s.length s

/-- The f-string `"` followed by a brace-wrapped `key`: the placeholder text
built by `Resource.substitute_parameters` for a mapping key. -/
def placeholder (key : List Char) : List Char := lb :: (key ++ [rb])

/-- `Resource.substitute_parameters` (base.py lines 160-166): starts from the
URI and, for each key/value pair of the mapping in iteration order, replaces
the key's placeholder by the value via Python `str.replace`. -/
def substitute_parameters (uri : List Char) (parameters : List (List Char × List Char)) :
    List Char :=
  parameters.foldl (fun result kv => pyReplace result (placeholder kv.1) kv.2) uri

/-- A string with no brace characters. -/
def braceFree (l : List Char) : Prop := ∀ c ∈ l, c ≠ lb ∧ c ≠ rb

instance (l : List Char) : Decidable (braceFree l) := by
  unfold braceFree; infer_instance

/-- Modelled from the spec: "for each key/value pair, replaces every literal
occurrence of `\x7bkey\x7d` in the URI string with the string form of `value`",
read as Python `str.replace` semantics: `t` is obtained from `s` by replacing
every leftmost non-overlapping occurrence of `pat` by `rep`.  The side
condition in `here` states that the exhibited occurrence is the leftmost one. -/
inductive SpecReplacesOccurrences (pat rep : List Char) : List Char → List Char → Prop
  | no_occurrence (s : List Char) (h : ¬ pat <:+: s) : SpecReplacesOccurrences pat rep s s
  | here (a b t : List Char)
      (hleft : ∀ a' b', a ++ (pat ++ b) = a' ++ (pat ++ b') → a.length ≤ a'.length)
      (ht : SpecReplacesOccurrences pat rep b t) :
      SpecReplacesOccurrences pat rep (a ++ (pat ++ b)) (a ++ (rep ++ t))

/-- `ResourceAccessType` (base.py): resource access types. -/
inductive ResourceAccessType
  | public
  | mcp_server
deriving DecidableEq

/-- `ResourceParameter.allowed_values` (base.py): either a domain tag string
or an explicit list of allowed string literals (`Union[str, List[str]]`). -/
inductive AllowedValues
  | str (s : List Char)
  | list (l : List (List Char))
deriving DecidableEq

/-- `ResourceParameter` (base.py): configuration for one resource parameter. -/
structure ResourceParameter where
  name : List Char
  description : List Char
  allowed_values : AllowedValues
deriving DecidableEq

/-- `ResourceConfig` (base.py): typed configuration for one resource. -/
structure ResourceConfig where
  name : List Char
  description : List Char
  type : List Char
  access : ResourceAccessType
  uri : List Char
  function : Option (List Char)
  resource_parameters : List ResourceParameter
deriving DecidableEq

/-- JSON-like values, enough for the derived parameter schemas: strings,
arrays, and objects as ordered key/value field lists (Python dicts). -/
inductive JValue
  | str (s : List Char)
  | arr (l : List JValue)
  | obj (fields : List (List Char × JValue))

/-- Python `d[k] = v` on a dict modelled as an ordered field list: if the key
is present its value is updated in place, otherwise the pair is appended. -/
def dictInsert (d : List (List Char × JValue)) (k : List Char) (v : JValue) :
    List (List Char × JValue) :=
  match d with
  | [] => [(k, v)]
  | (k', v') :: rest => if k' == k then (k', v) :: rest else (k', v') :: dictInsert rest k v

/-- The per-parameter schema built in the loop body of
`ResourceConfig.get_parameter_schema` (base.py lines 52-66): a dict with the
description, a type derived from `allowed_values`, and for an explicit list an
`enum` entry. -/
def param_schema (p : ResourceParameter) : JValue :=
  match p.allowed_values with
  | .str s =>
      .obj [("description".data, .str p.description),
            ("type".data, .str (if s == "string".data then "string".data
              else if s == "number".data then "number".data
              else if s == "boolean".data then "boolean".data
              else "string".data))]
  | .list l =>
      .obj [("description".data, .str p.description),
            ("type".data, .str "string".data),
            ("enum".data, .arr (l.map .str))]

/-- `ResourceConfig.get_parameter_schema` (base.py lines 44-75; the identical
code is duplicated as `Resource.get_parameter_schema`, lines 122-153): with no
declared parameters it returns only a `type object` entry and an empty
`properties` entry; otherwise it accumulates `properties` (a dict) and `required`
(a list) over the declared parameters and returns all four entries. -/
def get_parameter_schema (cfg : ResourceConfig) : JValue :=
  if cfg.resource_parameters.isEmpty then
    .obj [("type".data, .str "object".data), ("properties".data, .obj [])]
  else
    let acc := cfg.resource_parameters.foldl
      (fun pr param => (dictInsert pr.1 param.name (param_schema param), pr.2 ++ [param.name]))
      ([], [])
    .obj [("type".data, .str "object".data),
          ("properties".data, .obj acc.1),
          ("required".data, .arr (acc.2.map .str))]

/-- Key lookup on a JSON object (`none` on a missing key or a non-object). -/
def objLookup (j : JValue) (k : List Char) : Option JValue :=
  match j with
  | .obj fields => fields.lookup k
  | _ => none

/-- The keys of the `properties` entry of a derived schema. -/
def schemaPropsKeys (j : JValue) : List (List Char) :=
  match objLookup j "properties".data with
  | some (.obj fields) => fields.map Prod.fst
  | _ => []

/-- The names listed in the `required` entry of a derived schema. -/
def schemaRequiredNames (j : JValue) : List (List Char) :=
  match objLookup j "required".data with
  | some (.arr l) => l.filterMap (fun x => match x with | .str s => some s | _ => none)
  | _ => []

/-- A Python exception value, by class and message, as raised/caught in
`HttpResource._fetch_http_content`. -/
inductive PyErr
  | valueError (msg : List Char)
  | httpxRequestError (msg : List Char)
  | otherException (msg : List Char)
deriving DecidableEq

/-- Python `str(e)` on an exception: its message. -/
def pyStr : PyErr → List Char
  | .valueError m => m
  | .httpxRequestError m => m
  | .otherException m => m

/-- The outcome of the one `client.get(url)` call plus reading `.text`:
a response with a status code and body text, an `httpx.RequestError`, or
some other exception raised inside the `try` block. -/
inductive HttpOutcome
  | response (status : Nat) (text : List Char)
  | requestError (msg : List Char)
  | otherException (msg : List Char)
deriving DecidableEq

/-- `Resource.validate_parameters` (base.py lines 155-158): the default
pass-through, `return parameters or d` with `d` the empty dict. -/
def validate_parameters (parameters : List (List Char × List Char)) :
    List (List Char × List Char) :=
  if parameters.isEmpty then [] else parameters

/-- The URL used by `HttpResource._fetch_http_content` after the optional
substitution step (lines 76-81): starts from the descriptor URI; when the
`parameters` argument is truthy (not `None` and not empty), validates it and
substitutes it into the URI. -/
def effective_url (cfg : ResourceConfig)
    (parameters : Option (List (List Char × List Char))) : List Char :=
  match parameters with
  | some ps => if ps.isEmpty then cfg.uri
      else substitute_parameters cfg.uri (validate_parameters ps)
  | none => cfg.uri

/-- The body of the `try` block in `HttpResource._fetch_http_content`
(lines 87-94): on status 200 the response text is returned; on any other
status a `ValueError` carrying the status code and URL is raised; exceptions
of the `client.get` call itself propagate. -/
def tryFetch (outcome : HttpOutcome) (url : List Char) : Except PyErr (List Char) :=
  match outcome with
  | .response status text =>
      if status == 200 then .ok text
      else .error (.valueError ("HTTP error ".data ++ (Nat.repr status).data
        ++ " when fetching ".data ++ url))
  | .requestError m => .error (.httpxRequestError m)
  | .otherException m => .error (.otherException m)

/-- `HttpResource._fetch_http_content` (publichttpresource.py lines 74-98):
substitute parameters, reject a URL that starts with neither `http://` nor
`https://`, then run the `try` block; an `httpx.RequestError` is re-raised as
the transport-failure `ValueError`, and every other exception escaping the
`try` block — including the `ValueError` raised there for a non-200 status —
is caught by the blanket `except Exception` and re-raised as the generic
`ValueError` wrapping `str(e)`. -/
def fetch_http_content (cfg : ResourceConfig)
    (parameters : Option (List (List Char × List Char))) (outcome : HttpOutcome) :
    Except PyErr (List Char) :=
  let url := effective_url cfg parameters
  if !("http://".data.isPrefixOf url || "https://".data.isPrefixOf url) then
    .error (.valueError ("Invalid URL scheme for public resource: ".data ++ url))
  else
    match tryFetch outcome url with
    | .ok content => .ok content
    | .error (.httpxRequestError m) =>
        .error (.valueError ("Failed to fetch resource from ".data ++ url
          ++ ": ".data ++ m))
    | .error e =>
        .error (.valueError ("Unexpected error fetching ".data ++ url
          ++ ": ".data ++ pyStr e))

/-- `HttpResource.get_content` (publichttpresource.py lines 52-59): with
exactly one configured descriptor it fetches that one; otherwise it raises
the ambiguous-selection `ValueError`. -/
def http_get_content (instances : List ResourceConfig)
    (parameters : Option (List (List Char × List Char))) (outcome : HttpOutcome) :
    Except PyErr (List Char) :=
  match instances with
  | [cfg] => fetch_http_content cfg parameters outcome
  | _ => .error (.valueError "Multi-resource classes need specific resource selection".data)

/-- `HttpResource.get_resource_content` (publichttpresource.py lines 61-72):
scan the descriptors in order for the first whose name equals the requested
name; raise the not-found `ValueError` when none matches. -/
def http_get_resource_content (instances : List ResourceConfig) (resource_name : List Char)
    (parameters : Option (List (List Char × List Char))) (outcome : HttpOutcome) :
    Except PyErr (List Char) :=
  match instances.find? (fun res => res.name == resource_name) with
  | some cfg => fetch_http_content cfg parameters outcome
  | none => .error (.valueError ("Resource '".data ++ resource_name ++ "' not found".data))

/-- `ExamplePrivateResources._sample_parameterized_resource`
(privateresourceexample.py lines 85-103): branches on the lower-cased
`client` parameter (defaulting to the empty string). -/
def sample_parameterized_resource (parameters : List (List Char × List Char)) : List Char :=
  let client := ((parameters.lookup "client".data).getD []).map Char.toLower
  if client == "acme".data then "This is the roadrunner client".data
  else if client == "bigrock".data then "We make tools to smash birds".data
  else "Unknown client: ".data ++ client ++ ". Available clients: acme, bigrock".data

/-- The string-returning content-handler methods defined on
`ExamplePrivateResources` and their semantics: the class defines exactly one,
`_sample_parameterized_resource`.  For these names, `getattr` followed by the
awaited call yields the handler's string result. -/
def handlerTable : List (List Char × (List (List Char × List Char) → List Char)) :=
  [("_sample_parameterized_resource".data, sample_parameterized_resource)]

/-- Every attribute name this repository's source puts on an
`ExamplePrivateResources` instance constructed from a configuration mapping,
i.e. the set over which `hasattr(self, function_name)` succeeds by force of
the source alone: the methods defined on the class (privateresourceexample.py),
the methods inherited from `Resource` (base.py), and the instance attributes
assigned in the mapping branch of `__init__` (privateresourceexample.py lines
17-44).  The Python object machinery adds further interpreter-supplied names
(dunders such as `__class__` and `__str__`, ABC internals); those are not
derivable from this source and are passed separately to `get_mcp_content`. -/
def providerAttributeNames : List (List Char) :=
  ["__init__".data, "get_content".data, "get_resource_content".data,
   "_get_mcp_content".data, "_sample_parameterized_resource".data, "get_resources".data,
   "get_parameter_schema".data, "validate_parameters".data, "substitute_parameters".data,
   "to_mcp_def".data, "_get_mime_type".data,
   "resources_config".data, "class_name".data, "class_description".data,
   "resource_instances".data]

/-- `ExamplePrivateResources._get_mcp_content` (privateresourceexample.py
lines 72-83): `if not resource_config.function` (so a missing and an empty
handler name alike) raises the no-function `ValueError`; otherwise
`hasattr(self, function_name)` is consulted — it succeeds exactly on the
source-defined attribute names plus the interpreter-supplied ones
(`interpreterAttrs`) — raising the not-found `ValueError` when it fails.
When it succeeds the attribute is fetched with `getattr` and called on
`parameters or d` with `d` the empty dict: for the string-returning content
handler the handler's string is returned; for any other attribute the
program still calls it, and what that call produces (in practice an
exception such as a `TypeError`, since those attributes are not
one-argument string coroutines) is the Python runtime's business, modelled
by the `attrCall` argument, exactly as the network's behaviour is modelled
by `HttpOutcome`. -/
def get_mcp_content (cfg : ResourceConfig)
    (parameters : Option (List (List Char × List Char)))
    (interpreterAttrs : List (List Char))
    (attrCall : List Char → Except PyErr (List Char)) : Except PyErr (List Char) :=
  match cfg.function with
  | none => .error (.valueError ("No function specified for mcp_server resource '".data
      ++ cfg.name ++ "'".data))
  | some function_name =>
    if function_name.isEmpty then
      .error (.valueError ("No function specified for mcp_server resource '".data
        ++ cfg.name ++ "'".data))
    else if providerAttributeNames.contains function_name
        || interpreterAttrs.contains function_name then
      match handlerTable.lookup function_name with
      | some function_method => .ok (function_method (parameters.getD []))
      | none => attrCall function_name
    else
      .error (.valueError ("Function '".data ++ function_name
        ++ "' not found in resource class".data))

/-- `ExamplePrivateResources.get_content` (privateresourceexample.py lines
50-57): with exactly one configured descriptor it dispatches to that one;
otherwise it raises the ambiguous-selection `ValueError`. -/
def private_get_content (instances : List ResourceConfig)
    (parameters : Option (List (List Char × List Char)))
    (interpreterAttrs : List (List Char))
    (attrCall : List Char → Except PyErr (List Char)) : Except PyErr (List Char) :=
  match instances with
  | [cfg] => get_mcp_content cfg parameters interpreterAttrs attrCall
  | _ => .error (.valueError "Multi-resource classes need specific resource selection".data)

/-- `ExamplePrivateResources.get_resource_content` (privateresourceexample.py
lines 59-70): first descriptor whose name matches, else the not-found
`ValueError`. -/
def private_get_resource_content (instances : List ResourceConfig) (resource_name : List Char)
    (parameters : Option (List (List Char × List Char)))
    (interpreterAttrs : List (List Char))
    (attrCall : List Char → Except PyErr (List Char)) : Except PyErr (List Char) :=
  match instances.find? (fun res => res.name == resource_name) with
  | some cfg => get_mcp_content cfg parameters interpreterAttrs attrCall
  | none => .error (.valueError ("Resource '".data ++ resource_name ++ "' not found".data))

/-- A concrete instantiation of the attribute-call boundary: invoking a
provider attribute that is not a one-argument string coroutine raises a
`TypeError` (e.g. `get_resources` takes no argument beyond `self`). -/
def exampleTypeErrorCall : List Char → Except PyErr (List Char) :=
  fun name => .error (.otherException ("TypeError calling ".data ++ name))

/-- Spec error taxonomy: the upstream-status error kind, recognized by its
message shape `HTTP error ... when fetching ...`. -/
def isUpstreamStatusMsg (m : List Char) : Bool := "HTTP error ".data.isPrefixOf m

/-- Spec error taxonomy: the transport-failure error kind, recognized by its
message shape `Failed to fetch resource from ...`. -/
def isTransportFailureMsg (m : List Char) : Bool :=
  "Failed to fetch resource from ".data.isPrefixOf m

/-- Spec error taxonomy: the generic-failure error kind, recognized by its
message shape `Unexpected error fetching ...`. -/
def isGenericFailureMsg (m : List Char) : Bool :=
  "Unexpected error fetching ".data.isPrefixOf m

/-- A concrete public HTTP descriptor with URI `http://x` and no parameters. -/
def exampleHttpDescriptor : ResourceConfig :=
  { name := "r".data, description := [], type := "txt".data, access := .public,
    uri := "http://x".data, function := none, resource_parameters := [] }

/-- A concrete descriptor whose URI has a non-HTTP scheme. -/
def exampleFtpDescriptor : ResourceConfig :=
  { name := "r".data, description := [], type := "txt".data, access := .public,
    uri := "ftp://x".data, function := none, resource_parameters := [] }

/-- A concrete function-dispatch descriptor naming the sample handler. -/
def exampleFnDescriptor : ResourceConfig :=
  { name := "sample".data, description := [], type := "txt".data, access := .mcp_server,
    uri := "internal://sample".data,
    function := some "_sample_parameterized_resource".data, resource_parameters := [] }

/-- A concrete function-dispatch descriptor declaring the empty string as its
handler name. -/
def exampleEmptyFnDescriptor : ResourceConfig :=
  { name := "r".data, description := [], type := "txt".data, access := .mcp_server,
    uri := "internal://r".data, function := some [], resource_parameters := [] }

/-- A concrete function-dispatch descriptor whose declared handler name is
`get_resources`, a real provider method that is not a content handler. -/
def exampleGetResourcesDescriptor : ResourceConfig :=
  { name := "r".data, description := [], type := "txt".data, access := .mcp_server,
    uri := "internal://r".data, function := some "get_resources".data,
    resource_parameters := [] }

/-- A concrete declared parameter named `a` of domain tag `string`. -/
def exampleParamA : ResourceParameter :=
  { name := "a".data, description := "da".data, allowed_values := .str "string".data }

/-- A concrete declared parameter named `b` with an enumerated domain. -/
def exampleParamB : ResourceParameter :=
  { name := "b".data, description := "db".data, allowed_values := .list ["x".data, "y".data] }

/-- A concrete descriptor declaring the two distinct parameters `a` and `b`. -/
def exampleTwoParamDescriptor : ResourceConfig :=
  { name := "r".data, description := [], type := "txt".data, access := .public,
    uri := "http://x/\x7ba\x7d/\x7bb\x7d".data, function := none,
    resource_parameters := [exampleParamA, exampleParamB] }

/-- First of two same-named descriptors. -/
def exampleDupOne : ResourceConfig :=
  { name := "dup".data, description := [], type := "txt".data, access := .public,
    uri := "http://one".data, function := none, resource_parameters := [] }

/-- Second of two same-named descriptors. -/
def exampleDupTwo : ResourceConfig :=
  { name := "dup".data, description := [], type := "txt".data, access := .public,
    uri := "http://two".data, function := none, resource_parameters := [] }

lemma replaceFuel_nil (pat rep : List Char) (n : Nat) : replaceFuel pat rep n [] = [] := by
  cases n <;> rfl

lemma replaceFuel_zero (pat rep s : List Char) : replaceFuel pat rep 0 s = s := by
  cases s <;> rfl

lemma replaceFuel_cons_match (pat rep : List Char) (c : Char) (rest : List Char) (n : Nat)
    (h : pat.isPrefixOf (c :: rest) = true) :
    replaceFuel pat rep (n + 1) (c :: rest) =
      rep ++ replaceFuel pat rep n ((c :: rest).drop pat.length) := by
  simp [replaceFuel, h]

lemma replaceFuel_cons_nomatch (pat rep : List Char) (c : Char) (rest : List Char) (n : Nat)
    (h : ¬ pat.isPrefixOf (c :: rest) = true) :
    replaceFuel pat rep (n + 1) (c :: rest) = c :: replaceFuel pat rep n rest := by
  simp [replaceFuel, h]

lemma specReplaces_cons (pat rep : List Char) (c : Char) {rest t : List Char}
    (hnp : ¬ pat <+: c :: rest)
    (h : SpecReplacesOccurrences pat rep rest t) :
    SpecReplacesOccurrences pat rep (c :: rest) (c :: t) := by
  cases h with
  | no_occurrence s hs =>
    refine SpecReplacesOccurrences.no_occurrence _ ?_
    intro hinf
    rcases List.infix_cons_iff.mp hinf with hpre | htail
    · exact hnp hpre
    · exact hs htail
  | here a b t' hleft ht =>
    have hmain := @SpecReplacesOccurrences.here pat rep (c :: a) b t' ?_ ht
    · simpa using hmain
    · intro a' b' he
      cases a' with
      | nil =>
        exact absurd ⟨b', by simpa using he.symm⟩ hnp
      | cons x a'' =>
        have hx : c = x ∧ a ++ (pat ++ b) = a'' ++ (pat ++ b') := by
          simpa using he
        have := hleft a'' b' hx.2
        simp only [List.length_cons]
        omega

lemma replaceFuel_spec (pat rep : List Char) (hpat : pat ≠ []) :
    ∀ n s, s.length ≤ n → SpecReplacesOccurrences pat rep s (replaceFuel pat rep n s) := by
  intro n
  induction n with
  | zero =>
    intro s hs
    have hsnil : s = [] := List.eq_nil_of_length_eq_zero (Nat.le_zero.mp hs)
    subst hsnil
    rw [replaceFuel_nil]
    exact SpecReplacesOccurrences.no_occurrence [] (fun h => hpat (List.infix_nil.mp h))
  | succ n ih =>
    intro s hs
    cases s with
    | nil =>
      rw [replaceFuel_nil]
      exact SpecReplacesOccurrences.no_occurrence [] (fun h => hpat (List.infix_nil.mp h))
    | cons c rest =>
      by_cases hpre : pat.isPrefixOf (c :: rest) = true
      · rw [replaceFuel_cons_match pat rep c rest n hpre]
        obtain ⟨tl, htl⟩ := List.isPrefixOf_iff_prefix.mp hpre
        have hdrop : (c :: rest).drop pat.length = tl := by
          rw [← htl]; exact List.drop_left pat tl
        have hlen : tl.length ≤ n := by
          have h1 : 0 < pat.length := List.length_pos.mpr hpat
          have h2 : pat.length + tl.length = (c :: rest).length := by
            rw [← htl]; simp
          simp only [List.length_cons] at h2 hs
          omega
        have hrec := ih tl hlen
        have hmain := @SpecReplacesOccurrences.here pat rep
          [] tl (replaceFuel pat rep n tl) (fun a' b' _ => by simp) hrec
        rw [hdrop]
        simpa [htl] using hmain
      · rw [replaceFuel_cons_nomatch pat rep c rest n hpre]
        have hrest : rest.length ≤ n := by
          simp only [List.length_cons] at hs; omega
        exact specReplaces_cons pat rep c
          (fun hp => hpre ( List.isPrefixOf_iff_prefix.mpr hp)) (ih rest hrest)

lemma placeholder_ne_nil (k : List Char) : placeholder k ≠ [] := by
  simp [placeholder]

lemma placeholder_length (k : List Char) : (placeholder k).length = k.length + 2 := by
  simp [placeholder]

lemma pyReplace_eq_replaceFuel (s pat rep : List Char) (h : pat ≠ []) :
    pyReplace s pat rep = replaceFuel pat rep s.length s := by
  have : pat.isEmpty = false := by
    cases pat with
    | nil => exact absurd rfl h
    | cons c l => rfl
  simp [pyReplace, this]

lemma braceFree_cons {c : Char} {l : List Char} (h : braceFree (c :: l)) :
    (c ≠ lb ∧ c ≠ rb) ∧ braceFree l := by
  constructor
  · exact h c (by simp)
  · intro d hd; exact h d (by simp [hd])

lemma braceFree_rb_append_inj : ∀ p k y y' : List Char, braceFree p → braceFree k →
    p ++ rb :: y = k ++ rb :: y' → p = k ∧ y = y' := by
  intro p
  induction p with
  | nil =>
    intro k y y' _ hk he
    cases k with
    | nil => simpa using he
    | cons c k' =>
      exfalso
      obtain ⟨hc, -⟩ := List.cons_eq_cons.mp (by simpa using he)
      exact (braceFree_cons hk).1.2 hc.symm
  | cons c p' ih =>
    intro k y y' hp hk he
    cases k with
    | nil =>
      exfalso
      obtain ⟨hc, -⟩ := List.cons_eq_cons.mp (by simpa using he)
      exact (braceFree_cons hp).1.2 hc
    | cons d k' =>
      obtain ⟨h1, h2⟩ := List.cons_eq_cons.mp (by simpa using he)
      obtain ⟨hpk, hyy⟩ := ih k' y y' (braceFree_cons hp).2 (braceFree_cons hk).2 h2
      exact ⟨by rw [h1, hpk], hyy⟩

lemma append_split_of_le : ∀ x x' A B : List Char, x ++ A = x' ++ B → x.length ≤ x'.length →
    ∃ d, x' = x ++ d ∧ A = d ++ B := by
  intro x
  induction x with
  | nil =>
    intro x' A B he _
    exact ⟨x', rfl, by simpa using he⟩
  | cons c xt ih =>
    intro x' A B he hle
    cases x' with
    | nil => simp at hle
    | cons c' xt' =>
      obtain ⟨h1, h2⟩ := List.cons_eq_cons.mp (by simpa using he)
      obtain ⟨d, hd1, hd2⟩ := ih xt' A B h2 (by simpa using hle)
      exact ⟨d, by simp [h1, hd1], hd2⟩

lemma placeholder_occ_disjoint (p k : List Char) (hp : braceFree p) (hk : braceFree k) :
    ∀ x y x' y' : List Char, x ++ (placeholder p ++ y) = x' ++ (placeholder k ++ y') →
    x.length ≤ x'.length →
    (p = k ∧ x = x' ∧ y = y') ∨
      ∃ m, x' = x ++ (placeholder p ++ m) ∧ y = m ++ (placeholder k ++ y') := by
  intro x y x' y' he hle
  obtain ⟨d, hd1, hd2⟩ := append_split_of_le x x' _ _ he hle
  cases d with
  | nil =>
    have h2 : p ++ rb :: y = k ++ rb :: y' := by
      simpa [placeholder] using hd2
    obtain ⟨hpk, hyy⟩ := braceFree_rb_append_inj p k y y' hp hk h2
    exact Or.inl ⟨hpk, by simp [hd1], hyy⟩
  | cons c d' =>
    obtain ⟨hc, h2⟩ := List.cons_eq_cons.mp (by simpa [placeholder] using hd2)
    by_cases hlen : d'.length ≤ p.length
    · exfalso
      obtain ⟨e, he1, he2⟩ := append_split_of_le d' p _ _ h2.symm hlen
      cases e with
      | nil =>
        obtain ⟨hbad, -⟩ := List.cons_eq_cons.mp (by simpa [placeholder] using he2)
        exact (by decide : lb ≠ rb) hbad
      | cons f e' =>
        obtain ⟨hf, -⟩ := List.cons_eq_cons.mp (by simpa [placeholder] using he2)
        have hfp : f ∈ p := by rw [he1]; simp
        exact (hp f hfp).1 hf.symm
    · obtain ⟨e, he1, he2⟩ := append_split_of_le p d' _ _ h2 (by omega)
      cases e with
      | nil =>
        exfalso
        obtain ⟨hbad, -⟩ := List.cons_eq_cons.mp (by simpa [placeholder] using he2)
        exact (by decide : rb ≠ lb) hbad
      | cons f e' =>
        obtain ⟨hf, hy⟩ := List.cons_eq_cons.mp (by simpa using he2)
        refine Or.inr ⟨e', ?_, by simpa [placeholder] using hy⟩
        rw [hd1, ← hc, he1, ← hf]
        simp [placeholder]

lemma no_placeholder_start_inside (k : List Char) :
    ∀ p y j, braceFree p → j ≤ p.length → ¬ placeholder k <+: (p ++ rb :: y).drop j := by
  intro p
  induction p with
  | nil =>
    intro y j _ hj hpre
    have hj0 : j = 0 := Nat.le_zero.mp hj
    subst hj0
    obtain ⟨t, ht⟩ := hpre
    obtain ⟨hbad, -⟩ := List.cons_eq_cons.mp (by simpa [placeholder] using ht)
    exact (by decide : lb ≠ rb) hbad
  | cons c p' ih =>
    intro y j hp hj hpre
    cases j with
    | zero =>
      obtain ⟨t, ht⟩ := hpre
      obtain ⟨hbad, -⟩ := List.cons_eq_cons.mp (by simpa [placeholder] using ht)
      exact ((braceFree_cons hp).1.1) hbad.symm
    | succ j' =>
      have hd : ((c :: p') ++ rb :: y).drop (j' + 1) = (p' ++ rb :: y).drop j' := by
        simp
      rw [hd] at hpre
      exact ih y j' (braceFree_cons hp).2 (by simpa using hj) hpre

lemma replaceFuel_keeps_clear_front (pat rep : List Char) :
    ∀ n s q, q <+: s → (∀ i, i < q.length → ¬ pat <+: s.drop i) →
    q <+: replaceFuel pat rep n s := by
  intro n
  induction n with
  | zero =>
    intro s q hq _
    rw [replaceFuel_zero]
    exact hq
  | succ n ih =>
    intro s q hq hcond
    cases s with
    | nil =>
      rw [replaceFuel_nil]
      exact hq
    | cons c rest =>
      cases q with
      | nil => exact List.nil_prefix
      | cons d q' =>
        by_cases hpre : pat.isPrefixOf (c :: rest) = true
        · exact absurd ( List.isPrefixOf_iff_prefix.mp hpre) (hcond 0 (by simp))
        · rw [replaceFuel_cons_nomatch pat rep c rest n hpre]
          obtain ⟨hdc, hq'⟩ := List.cons_prefix_cons.mp hq
          refine List.cons_prefix_cons.mpr ⟨hdc, ?_⟩
          refine ih rest q' hq' ?_
          intro i hi
          have := hcond (i + 1) (by simpa using Nat.succ_lt_succ hi)
          simpa using this

lemma replaceFuel_preserves_foreign (p k rep : List Char) (hp : braceFree p) (hk : braceFree k)
    (hne : p ≠ k) :
    ∀ n s, s.length ≤ n → placeholder p <:+: s →
    placeholder p <:+: replaceFuel (placeholder k) rep n s := by
  intro n
  induction n with
  | zero =>
    intro s hs hinf
    have hsnil : s = [] := List.eq_nil_of_length_eq_zero (Nat.le_zero.mp hs)
    subst hsnil
    exact absurd (List.infix_nil.mp hinf) (placeholder_ne_nil p)
  | succ n ih =>
    intro s hs hinf
    cases s with
    | nil => exact absurd (List.infix_nil.mp hinf) (placeholder_ne_nil p)
    | cons c rest =>
      by_cases hpre : (placeholder k).isPrefixOf (c :: rest) = true
      · rw [replaceFuel_cons_match (placeholder k) rep c rest n hpre]
        obtain ⟨tl, htl⟩ := List.isPrefixOf_iff_prefix.mp hpre
        have hdrop : (c :: rest).drop (placeholder k).length = tl := by
          rw [← htl]; exact List.drop_left (placeholder k) tl
        rw [hdrop]
        obtain ⟨x, y, hxy⟩ := hinf
        have heq : ([] : List Char) ++ (placeholder k ++ tl) = x ++ (placeholder p ++ y) := by
          simpa [htl] using hxy.symm
        rcases placeholder_occ_disjoint k p hk hp [] tl x y heq (by simp) with
          ⟨hkp, -, -⟩ | ⟨m, hm1, hm2⟩
        · exact absurd hkp.symm hne
        · have htl_inf : placeholder p <:+: tl := ⟨m, y, by simpa using hm2.symm⟩
          have hlen : tl.length ≤ n := by
            have h1 : 0 < (placeholder k).length := List.length_pos.mpr (placeholder_ne_nil k)
            have h2 : (placeholder k).length + tl.length = (c :: rest).length := by
              rw [← htl]; simp
            simp only [List.length_cons] at h2 hs
            omega
          obtain ⟨a, b, hab⟩ := ih tl hlen htl_inf
          exact ⟨rep ++ a, b, by rw [← hab]; simp⟩
      · obtain ⟨x, y, hxy⟩ := hinf
        cases x with
        | nil =>
          have hqpre : placeholder p <+: c :: rest := ⟨y, by simpa using hxy⟩
          have hcond : ∀ i, i < (placeholder p).length → ¬ placeholder k <+: (c :: rest).drop i := by
            intro i hi
            cases i with
            | zero =>
              intro hcontra
              exact hpre ( List.isPrefixOf_iff_prefix.mpr (by simpa using hcontra))
            | succ i' =>
              have hshape : c :: rest = lb :: (p ++ rb :: (y)) := by
                rw [← (by simpa using hxy : placeholder p ++ y = c :: rest)]
                simp [placeholder]
              rw [hshape]
              have hdropi : (lb :: (p ++ rb :: y)).drop (i' + 1) = (p ++ rb :: y).drop i' := by
                simp
              rw [hdropi]
              have hi' : i' ≤ p.length := by
                rw [placeholder_length] at hi
                omega
              exact no_placeholder_start_inside k p y i' hp hi'
          obtain ⟨t, ht⟩ := replaceFuel_keeps_clear_front (placeholder k) rep (n + 1)
            (c :: rest) (placeholder p) hqpre hcond
          exact ⟨[], t, by simpa using ht⟩
        | cons d x' =>
          obtain ⟨hdc, hrest⟩ := List.cons_eq_cons.mp (by simpa using hxy)
          rw [replaceFuel_cons_nomatch (placeholder k) rep c rest n hpre]
          have hrest_inf : placeholder p <:+: rest := ⟨x', y, by simpa using hrest⟩
          have hlen : rest.length ≤ n := by
            simp only [List.length_cons] at hs; omega
          obtain ⟨a, b, hab⟩ := ih rest hlen hrest_inf
          exact ⟨c :: a, b, by rw [← hab]; simp⟩

lemma substitute_preserves_foreign (p : List Char) (hp : braceFree p) :
    ∀ ps uri, (∀ kv ∈ ps, braceFree kv.1) → (∀ kv ∈ ps, kv.1 ≠ p) →
    placeholder p <:+: uri → placeholder p <:+: substitute_parameters uri ps := by
  intro ps
  induction ps with
  | nil => intro uri _ _ h; exact h
  | cons kv ps' ih =>
    intro uri hbf hne hinf
    have hstep : substitute_parameters uri (kv :: ps') =
        substitute_parameters (pyReplace uri (placeholder kv.1) kv.2) ps' := rfl
    rw [hstep]
    refine ih _ (fun x hx => hbf x (by simp [hx])) (fun x hx => hne x (by simp [hx])) ?_
    rw [pyReplace_eq_replaceFuel uri (placeholder kv.1) kv.2 (placeholder_ne_nil kv.1)]
    exact replaceFuel_preserves_foreign p kv.1 kv.2 hp
      (hbf kv (by simp)) (fun h => hne kv (by simp) h.symm) uri.length uri le_rfl hinf

lemma dictInsert_append (d : List (List Char × JValue)) (k : List Char) (v : JValue)
    (h : ∀ kv ∈ d, kv.1 ≠ k) : dictInsert d k v = d ++ [(k, v)] := by
  induction d with
  | nil => rfl
  | cons kv' rest ih =>
    have hne : (kv'.1 == k) = false := by
      simpa using h kv' (by simp)
    simp only [dictInsert, hne]
    rw [ih (fun x hx => h x (by simp [hx]))]
    simp

lemma schema_fold_chars :
    ∀ (params : List ResourceParameter) (d : List (List Char × JValue)) (r : List (List Char)),
    (d.map Prod.fst ++ params.map (fun p => p.name)).Nodup →
    (params.foldl (fun pr param =>
        (dictInsert pr.1 param.name (param_schema param), pr.2 ++ [param.name])) (d, r)) =
      (d ++ params.map (fun p => (p.name, param_schema p)), r ++ params.map (fun p => p.name)) := by
  intro params
  induction params with
  | nil => intro d r _; simp
  | cons p ps ih =>
    intro d r hnd
    have hdisj : (d.map Prod.fst).Disjoint (p.name :: ps.map (fun q => q.name)) := by
      have := List.nodup_append.mp (by simpa using hnd)
      exact this.2.2
    have hfresh : ∀ kv ∈ d, kv.1 ≠ p.name := by
      intro kv hkv he
      exact hdisj (List.mem_map_of_mem Prod.fst hkv) (by simp [he])
    have hstep : (p :: ps).foldl (fun pr param =>
        (dictInsert pr.1 param.name (param_schema param), pr.2 ++ [param.name])) (d, r) =
        ps.foldl (fun pr param =>
          (dictInsert pr.1 param.name (param_schema param), pr.2 ++ [param.name]))
          (dictInsert d p.name (param_schema p), r ++ [p.name]) := rfl
    rw [hstep, dictInsert_append d p.name _ hfresh]
    have hnd' : ((d ++ [(p.name, param_schema p)]).map Prod.fst
        ++ ps.map (fun q => q.name)).Nodup := by
      simpa [List.append_assoc] using hnd
    rw [ih _ _ hnd']
    simp

lemma count_eq_one_of_nodup_mem {a : List Char} {l : List (List Char)}
    (hd : l.Nodup) (h : a ∈ l) : l.count a = 1 := by
  induction l with
  | nil => simp at h
  | cons b l' ih =>
    rcases List.mem_cons.mp h with hab | hmem
    · have hnotmem : a ∉ l' := by rw [hab]; exact (List.nodup_cons.mp hd).1
      rw [List.count_cons]
      rw [List.count_eq_zero.mpr hnotmem]
      simp [hab.symm]
    · have hne : (b == a) = false := by
        have hbne : b ≠ a := by
          intro he
          exact (List.nodup_cons.mp hd).1 (he ▸ hmem)
        simpa using hbne
      rw [List.count_cons, ih (List.nodup_cons.mp hd).2 hmem, hne]
      simp

lemma filterMap_str_map (names : List (List Char)) :
    (names.map JValue.str).filterMap
      (fun x => match x with | .str s => some s | _ => none) = names := by
  induction names with
  | nil => rfl
  | cons n ns ih => simp [ih]

lemma schemaPropsKeys_obj3 (fs : List (List Char × JValue)) (req : List JValue) :
    schemaPropsKeys (.obj [("type".data, .str "object".data),
      ("properties".data, .obj fs), ("required".data, .arr req)]) = fs.map Prod.fst := rfl

lemma schemaRequiredNames_obj3 (fs : List (List Char × JValue)) (names : List (List Char)) :
    schemaRequiredNames (.obj [("type".data, .str "object".data),
      ("properties".data, .obj fs), ("required".data, .arr (names.map .str))]) = names := by
  have hlook : objLookup (.obj [("type".data, JValue.str "object".data),
      ("properties".data, JValue.obj fs),
      ("required".data, JValue.arr (names.map JValue.str))]) "required".data =
      some (JValue.arr (names.map JValue.str)) := rfl
  rw [schemaRequiredNames, hlook]
  exact filterMap_str_map names

lemma find?_name_none {instances : List ResourceConfig} {name : List Char}
    (h : ∀ r ∈ instances, r.name ≠ name) :
    instances.find? (fun res => res.name == name) = none := by
  refine List.find?_eq_none.mpr ?_
  intro x hx
  simpa using h x hx

/-- C1 (amended): `substitute_parameters` processes the key/value pairs in
mapping order; at each step it performs the spec's replacement of every
leftmost non-overlapping literal occurrence of the key's placeholder by the
value; when every key of the mapping is brace-free, every placeholder already
present in the URI whose brace-free name is not a key of the mapping is still
present in the output; and the concrete example of the spec holds.  (The
original unconditional untouched-placeholder statement fails for keys
containing braces — see the counterexample.) -/
theorem substitute_parameters_amended_spec :
    (∀ (uri k v : List Char) (ps : List (List Char × List Char)),
      substitute_parameters uri ((k, v) :: ps) =
        substitute_parameters (pyReplace uri (placeholder k) v) ps)
    ∧ (∀ uri k v : List Char,
      SpecReplacesOccurrences (placeholder k) v uri (pyReplace uri (placeholder k) v))
    ∧ (∀ (uri : List Char) (ps : List (List Char × List Char)) (p : List Char),
      (∀ kv ∈ ps, braceFree kv.1) → braceFree p → (∀ kv ∈ ps, kv.1 ≠ p) →
      placeholder p <:+: uri → placeholder p <:+: substitute_parameters uri ps)
    ∧ substitute_parameters "/items/\x7bid\x7d".data [("id".data, "42".data)]
        = "/items/42".data := by
  refine ⟨fun uri k v ps => rfl, fun uri k v => ?_, ?_, by decide⟩
  · rw [pyReplace_eq_replaceFuel uri (placeholder k) v (placeholder_ne_nil k)]
    exact replaceFuel_spec (placeholder k) v (placeholder_ne_nil k) uri.length uri le_rfl
  · intro uri ps p hbf hp hne hinf
    exact substitute_preserves_foreign p hp ps uri hbf hne hinf

/-- Witness for C1's amended theorem: the untouched-placeholder part applied
to a concrete URI holding the foreign placeholder for `b` and a mapping for
the brace-free key `a`. -/
theorem substitute_parameters_amended_spec_witness :
    placeholder "b".data <:+:
      substitute_parameters "/\x7bb\x7d/\x7ba\x7d".data [("a".data, "1".data)] :=
  substitute_parameters_amended_spec.2.2.1 "/\x7bb\x7d/\x7ba\x7d".data
    [("a".data, "1".data)] "b".data (by decide) (by decide) (by decide) (by decide)

/-- Counterexample to C1 as stated: for the mapping with the single key
`\x7bb` (which contains a brace) and empty value, the URI `\x7b\x7bb\x7d\x7d`
contains the placeholder named `b`, `b` is not a key of the mapping, yet the
output `\x7d` no longer contains that placeholder — so an unmatched
placeholder was not left untouched. -/
theorem substitute_parameters_collision_counterexample :
    substitute_parameters "\x7b\x7bb\x7d\x7d".data [("\x7bb".data, [])] = "\x7d".data
    ∧ placeholder "b".data <:+: "\x7b\x7bb\x7d\x7d".data
    ∧ ("\x7bb".data : List Char) ≠ "b".data
    ∧ ¬ placeholder "b".data <:+: "\x7d".data := by
  exact ⟨by decide, by decide, by decide, by decide⟩

/-- C2 (code bug evidence): on a 200 response the fetch returns exactly the
body text; but on a 404 the `ValueError` carrying `HTTP error 404 when
fetching ...` is raised inside the `try` block, caught by the blanket
`except Exception`, and re-raised as the generic `Unexpected error
fetching ...` error — so the surfaced error has the generic-failure shape,
not the distinct upstream-status shape the claim (and the code's own
three-way raise structure) intends, although its message still carries the
status code and the URL. -/
theorem fetch_http_status_behavior :
    fetch_http_content exampleHttpDescriptor none (.response 200 "BODY".data)
        = .ok "BODY".data
    ∧ fetch_http_content exampleHttpDescriptor none (.response 404 "not found".data)
        = .error (.valueError
          "Unexpected error fetching http://x: HTTP error 404 when fetching http://x".data)
    ∧ isGenericFailureMsg
        "Unexpected error fetching http://x: HTTP error 404 when fetching http://x".data = true
    ∧ isUpstreamStatusMsg
        "Unexpected error fetching http://x: HTTP error 404 when fetching http://x".data = false
    ∧ isTransportFailureMsg
        "Unexpected error fetching http://x: HTTP error 404 when fetching http://x".data = false
    ∧ fetch_http_content exampleHttpDescriptor none (.requestError "boom".data)
        = .error (.valueError "Failed to fetch resource from http://x: boom".data) :=
  ⟨rfl, rfl, rfl, rfl, rfl, rfl⟩

/-- C3: when the URI obtained after parameter substitution starts with neither
`http://` nor `https://`, the fetch fails with the invalid-target `ValueError`
whatever the network outcome would have been — the result does not depend on
the `outcome` argument, so no network request is ever consulted. -/
theorem fetch_http_invalid_scheme
    (cfg : ResourceConfig) (ps : Option (List (List Char × List Char))) (outcome : HttpOutcome)
    (h1 : "http://".data.isPrefixOf (effective_url cfg ps) = false)
    (h2 : "https://".data.isPrefixOf (effective_url cfg ps) = false) :
    fetch_http_content cfg ps outcome =
      .error (.valueError ("Invalid URL scheme for public resource: ".data
        ++ effective_url cfg ps)) := by
  simp [fetch_http_content, h1, h2]

/-- Witness for C3 at the spec's own example: substituted URI `ftp://x`,
with an arbitrary concrete 200 outcome that is never consulted. -/
theorem fetch_http_invalid_scheme_witness :
    fetch_http_content exampleFtpDescriptor none (.response 200 "b".data) =
      .error (.valueError "Invalid URL scheme for public resource: ftp://x".data) :=
  fetch_http_invalid_scheme exampleFtpDescriptor none (.response 200 "b".data)
    (by decide) (by decide)

/-- C4 (amended): for a descriptor with zero declared parameters the derived
schema is the object schema with empty properties and no `required` entry at
all (the code's early return omits the `required` key). -/
theorem empty_params_schema (cfg : ResourceConfig) (h : cfg.resource_parameters = []) :
    get_parameter_schema cfg =
      .obj [("type".data, .str "object".data), ("properties".data, .obj [])]
    ∧ objLookup (get_parameter_schema cfg) "required".data = none := by
  have hie : cfg.resource_parameters.isEmpty = true := by simp [h]
  have hsch : get_parameter_schema cfg =
      .obj [("type".data, .str "object".data), ("properties".data, .obj [])] := by
    simp [get_parameter_schema, hie]
  exact ⟨hsch, by rw [hsch]; rfl⟩

/-- Witness for C4's amended theorem at a concrete zero-parameter descriptor. -/
theorem empty_params_schema_witness :
    get_parameter_schema exampleHttpDescriptor =
      .obj [("type".data, .str "object".data), ("properties".data, .obj [])]
    ∧ objLookup (get_parameter_schema exampleHttpDescriptor) "required".data = none :=
  empty_params_schema exampleHttpDescriptor rfl

/-- Counterexample to C4 as stated: for a concrete zero-parameter descriptor
the derived schema has no `required` entry at all, contradicting the claim
that it contains a `required` entry holding the empty list. -/
theorem schema_missing_required_counterexample :
    objLookup (get_parameter_schema exampleFtpDescriptor) "required".data = none
    ∧ get_parameter_schema exampleFtpDescriptor =
        .obj [("type".data, .str "object".data), ("properties".data, .obj [])] :=
  ⟨rfl, rfl⟩

/-- C5: when the declared parameter names are pairwise distinct, every
declared parameter's name appears exactly once among the keys of the derived
schema's `properties` and exactly once in its `required` list (so every
declared parameter is required). -/
theorem parameter_schema_names_once (cfg : ResourceConfig)
    (hnodup : (cfg.resource_parameters.map (fun p => p.name)).Nodup)
    (p : ResourceParameter) (hp : p ∈ cfg.resource_parameters) :
    (schemaPropsKeys (get_parameter_schema cfg)).count p.name = 1
    ∧ (schemaRequiredNames (get_parameter_schema cfg)).count p.name = 1 := by
  have hne : cfg.resource_parameters ≠ [] := by
    intro h; rw [h] at hp; simp at hp
  have hie : cfg.resource_parameters.isEmpty = false := List.isEmpty_eq_false.mpr hne
  have hfold := schema_fold_chars cfg.resource_parameters [] [] (by simpa using hnodup)
  have hsch : get_parameter_schema cfg =
      .obj [("type".data, .str "object".data),
        ("properties".data,
          .obj (cfg.resource_parameters.map (fun q => (q.name, param_schema q)))),
        ("required".data,
          .arr ((cfg.resource_parameters.map (fun q => q.name)).map .str))] := by
    simp only [get_parameter_schema, hie, Bool.false_eq_true, if_false, hfold,
      List.nil_append]
  rw [hsch, schemaPropsKeys_obj3, schemaRequiredNames_obj3]
  have hkeys : (cfg.resource_parameters.map (fun q => (q.name, param_schema q))).map Prod.fst
      = cfg.resource_parameters.map (fun q => q.name) := by
    simp
  rw [hkeys]
  have hmem : p.name ∈ cfg.resource_parameters.map (fun q => q.name) :=
    List.mem_map_of_mem (fun q => q.name) hp
  exact ⟨count_eq_one_of_nodup_mem hnodup hmem, count_eq_one_of_nodup_mem hnodup hmem⟩

/-- Witness for C5 at a concrete two-parameter descriptor and its first
declared parameter. -/
theorem parameter_schema_names_once_witness :
    (schemaPropsKeys (get_parameter_schema exampleTwoParamDescriptor)).count "a".data = 1
    ∧ (schemaRequiredNames (get_parameter_schema exampleTwoParamDescriptor)).count "a".data
        = 1 :=
  parameter_schema_names_once exampleTwoParamDescriptor (by decide) exampleParamA (by decide)

/-- C6 (amended): a function-dispatch fetch fails with the no-function error
both when the descriptor declares no handler name and when it declares the
empty string (Python's falsiness check); a declared non-empty handler name on
which `hasattr` fails — neither a source-defined attribute of the provider
instance nor an interpreter-supplied one — fails with the function-not-found
error; a declared name resolving to the string-returning content handler is
invoked on the given parameters mapping (the empty mapping when none is
given) and its string result is returned; and a declared name resolving to
any other attribute of the instance is still called — the fetch yields
whatever that call produces, never the function-not-found error. -/
theorem function_dispatch_amended :
    (∀ (cfg : ResourceConfig) (ps : Option (List (List Char × List Char)))
      (ia : List (List Char)) (ac : List Char → Except PyErr (List Char)),
      cfg.function = none →
      get_mcp_content cfg ps ia ac = .error (.valueError
        ("No function specified for mcp_server resource '".data ++ cfg.name ++ "'".data)))
    ∧ (∀ (cfg : ResourceConfig) (ps : Option (List (List Char × List Char)))
      (ia : List (List Char)) (ac : List Char → Except PyErr (List Char)),
      cfg.function = some [] →
      get_mcp_content cfg ps ia ac = .error (.valueError
        ("No function specified for mcp_server resource '".data ++ cfg.name ++ "'".data)))
    ∧ (∀ (cfg : ResourceConfig) (ps : Option (List (List Char × List Char)))
        (ia : List (List Char)) (ac : List Char → Except PyErr (List Char))
        (fname : List Char),
      cfg.function = some fname → fname ≠ [] →
      fname ∉ providerAttributeNames → fname ∉ ia →
      get_mcp_content cfg ps ia ac = .error (.valueError
        ("Function '".data ++ fname ++ "' not found in resource class".data)))
    ∧ (∀ (cfg : ResourceConfig) (ps : Option (List (List Char × List Char)))
        (ia : List (List Char)) (ac : List Char → Except PyErr (List Char)),
      cfg.function = some "_sample_parameterized_resource".data →
      get_mcp_content cfg ps ia ac = .ok (sample_parameterized_resource (ps.getD [])))
    ∧ (∀ (cfg : ResourceConfig) (ps : Option (List (List Char × List Char)))
        (ia : List (List Char)) (ac : List Char → Except PyErr (List Char))
        (fname : List Char),
      cfg.function = some fname → fname ≠ [] →
      (fname ∈ providerAttributeNames ∨ fname ∈ ia) →
      handlerTable.lookup fname = none →
      get_mcp_content cfg ps ia ac = ac fname) := by
  refine ⟨?_, ?_, ?_, ?_, ?_⟩
  · intro cfg ps ia ac hfn
    simp [get_mcp_content, hfn]
  · intro cfg ps ia ac hfn
    simp [get_mcp_content, hfn]
  · intro cfg ps ia ac fname hfn hne hsrc hint
    have hie : fname.isEmpty = false := List.isEmpty_eq_false.mpr hne
    simp [get_mcp_content, hfn, hie, hsrc, hint]
  · intro cfg ps ia ac hfn
    have hmem : "_sample_parameterized_resource".data ∈ providerAttributeNames := by decide
    simp [get_mcp_content, hfn, hmem, handlerTable]
  · intro cfg ps ia ac fname hfn hne hattr hlook
    have hie : fname.isEmpty = false := List.isEmpty_eq_false.mpr hne
    rcases hattr with hmem | hmem
    · simp [get_mcp_content, hfn, hie, hmem, hlook]
    · simp [get_mcp_content, hfn, hie, hmem, hlook]

/-- Witness for C6's amended theorem: the sample handler resolves through the
instance's attribute set and is invoked on the given mapping (with the
interpreter-supplied attributes and the non-handler call boundary given
concretely). -/
theorem function_dispatch_amended_witness :
    get_mcp_content exampleFnDescriptor (some [("client".data, "acme".data)])
        ["__class__".data, "__str__".data] exampleTypeErrorCall =
      .ok (sample_parameterized_resource [("client".data, "acme".data)]) :=
  function_dispatch_amended.2.2.2.1 exampleFnDescriptor
    (some [("client".data, "acme".data)]) ["__class__".data, "__str__".data]
    exampleTypeErrorCall rfl

/-- Counterexample to C6 as stated, in both of its failing branches.  The
descriptor declaring the empty string as its handler name declares a name that
resolves to no method, yet the fetch fails with the no-function error, not the
function-not-found error the claim's second branch requires.  And the
descriptor declaring `get_resources` — a real method of the provider instance
that is not a string-returning content handler — is dispatched to the
attribute call (here concretely a `TypeError`), so the fetch neither raises
the function-not-found error nor returns a string result as the claim's
branches would demand. -/
theorem dispatch_empty_handler_counterexample :
    exampleEmptyFnDescriptor.function = some []
    ∧ handlerTable.lookup ([] : List Char) = none
    ∧ get_mcp_content exampleEmptyFnDescriptor none [] exampleTypeErrorCall =
        .error (.valueError "No function specified for mcp_server resource 'r'".data)
    ∧ ("No function specified for mcp_server resource 'r'".data : List Char) ≠
        ("Function '".data ++ [] ++ "' not found in resource class".data)
    ∧ "get_resources".data ∈ providerAttributeNames
    ∧ get_mcp_content exampleGetResourcesDescriptor none [] exampleTypeErrorCall =
        .error (.otherException "TypeError calling get_resources".data)
    ∧ (Except.error (PyErr.otherException "TypeError calling get_resources".data) :
          Except PyErr (List Char)) ≠
        .error (.valueError "Function 'get_resources' not found in resource class".data) :=
  ⟨rfl, rfl, rfl, by decide, by decide, rfl, by simp⟩

/-- C7: for both providers, `get_content` on two or more descriptors fails
with the ambiguous-selection error whatever the parameters (and, for the HTTP
provider, whatever the network outcome would have been), while on exactly one
descriptor it resolves directly to that descriptor's fetch routine. -/
theorem get_content_selection :
    (∀ (instances : List ResourceConfig) (ps : Option (List (List Char × List Char)))
      (outcome : HttpOutcome), 2 ≤ instances.length →
      http_get_content instances ps outcome =
        .error (.valueError "Multi-resource classes need specific resource selection".data))
    ∧ (∀ (cfg : ResourceConfig) (ps : Option (List (List Char × List Char)))
      (outcome : HttpOutcome),
      http_get_content [cfg] ps outcome = fetch_http_content cfg ps outcome)
    ∧ (∀ (instances : List ResourceConfig) (ps : Option (List (List Char × List Char)))
      (ia : List (List Char)) (ac : List Char → Except PyErr (List Char)),
      2 ≤ instances.length →
      private_get_content instances ps ia ac =
        .error (.valueError "Multi-resource classes need specific resource selection".data))
    ∧ (∀ (cfg : ResourceConfig) (ps : Option (List (List Char × List Char)))
      (ia : List (List Char)) (ac : List Char → Except PyErr (List Char)),
      private_get_content [cfg] ps ia ac = get_mcp_content cfg ps ia ac) := by
  refine ⟨?_, fun cfg ps outcome => rfl, ?_, fun cfg ps ia ac => rfl⟩
  · intro instances ps outcome h
    match instances with
    | [] => simp at h
    | [a] => simp at h
    | a :: b :: t => rfl
  · intro instances ps ia ac h
    match instances with
    | [] => simp at h
    | [a] => simp at h
    | a :: b :: t => rfl

/-- Witness for C7: a concrete two-descriptor HTTP provider is ambiguous. -/
theorem get_content_selection_witness :
    http_get_content [exampleHttpDescriptor, exampleFtpDescriptor] none
        (.response 200 "B".data) =
      .error (.valueError "Multi-resource classes need specific resource selection".data) :=
  get_content_selection.1 [exampleHttpDescriptor, exampleFtpDescriptor] none
    (.response 200 "B".data) (by decide)

/-- C8: for both providers, `get_resource_content` with a name matching none
of the descriptors (exact string comparison) fails with the not-found error,
for every parameters argument (and, for the HTTP provider, independently of
the network outcome). -/
theorem get_resource_content_not_found :
    (∀ (instances : List ResourceConfig) (name : List Char)
      (ps : Option (List (List Char × List Char))) (outcome : HttpOutcome),
      (∀ r ∈ instances, r.name ≠ name) →
      http_get_resource_content instances name ps outcome =
        .error (.valueError ("Resource '".data ++ name ++ "' not found".data)))
    ∧ (∀ (instances : List ResourceConfig) (name : List Char)
      (ps : Option (List (List Char × List Char)))
      (ia : List (List Char)) (ac : List Char → Except PyErr (List Char)),
      (∀ r ∈ instances, r.name ≠ name) →
      private_get_resource_content instances name ps ia ac =
        .error (.valueError ("Resource '".data ++ name ++ "' not found".data))) := by
  constructor
  · intro instances name ps outcome h
    simp [http_get_resource_content, find?_name_none h]
  · intro instances name ps ia ac h
    simp [private_get_resource_content, find?_name_none h]

/-- Witness for C8: the spec's own example, requesting `nosuch`. -/
theorem get_resource_content_not_found_witness :
    http_get_resource_content [exampleHttpDescriptor] "nosuch".data none
        (.response 200 "B".data) =
      .error (.valueError "Resource 'nosuch' not found".data) :=
  get_resource_content_not_found.1 [exampleHttpDescriptor] "nosuch".data none
    (.response 200 "B".data) (by decide)

/-- C9: for both providers, when the descriptor sequence contains a first
name match, `get_resource_content` dispatches to that descriptor's fetch
routine, whatever same-named descriptors appear later in the sequence. -/
theorem get_resource_content_first_match :
    (∀ (pre : List ResourceConfig) (cfg : ResourceConfig) (post : List ResourceConfig)
      (name : List Char) (ps : Option (List (List Char × List Char))) (outcome : HttpOutcome),
      cfg.name = name → (∀ r ∈ pre, r.name ≠ name) →
      http_get_resource_content (pre ++ cfg :: post) name ps outcome =
        fetch_http_content cfg ps outcome)
    ∧ (∀ (pre : List ResourceConfig) (cfg : ResourceConfig) (post : List ResourceConfig)
      (name : List Char) (ps : Option (List (List Char × List Char)))
      (ia : List (List Char)) (ac : List Char → Except PyErr (List Char)),
      cfg.name = name → (∀ r ∈ pre, r.name ≠ name) →
      private_get_resource_content (pre ++ cfg :: post) name ps ia ac =
        get_mcp_content cfg ps ia ac) := by
  constructor
  · intro pre cfg post name ps outcome hname hpre
    have hfind : (pre ++ cfg :: post).find? (fun res => res.name == name) = some cfg := by
      rw [List.find?_append, find?_name_none hpre,
        List.find?_cons_of_pos post (by simpa using hname)]
      rfl
    simp [http_get_resource_content, hfind]
  · intro pre cfg post name ps ia ac hname hpre
    have hfind : (pre ++ cfg :: post).find? (fun res => res.name == name) = some cfg := by
      rw [List.find?_append, find?_name_none hpre,
        List.find?_cons_of_pos post (by simpa using hname)]
      rfl
    simp [private_get_resource_content, hfind]

/-- Witness for C9: two same-named descriptors; the first one (URI
`http://one`) is dispatched to. -/
theorem get_resource_content_first_match_witness :
    http_get_resource_content [exampleDupOne, exampleDupTwo] "dup".data none
        (.response 200 "B".data) =
      fetch_http_content exampleDupOne none (.response 200 "B".data) :=
  get_resource_content_first_match.1 [] exampleDupOne [exampleDupTwo] "dup".data none
    (.response 200 "B".data) rfl (by decide)

/-- C10: for both providers, `get_content` on a provider constructed with zero
descriptors fails with the same ambiguous-selection error as the
multi-descriptor case, for every parameters argument. -/
theorem get_content_zero_descriptors :
    (∀ (ps : Option (List (List Char × List Char))) (outcome : HttpOutcome),
      http_get_content [] ps outcome =
        .error (.valueError "Multi-resource classes need specific resource selection".data))
    ∧ (∀ (ps : Option (List (List Char × List Char)))
      (ia : List (List Char)) (ac : List Char → Except PyErr (List Char)),
      private_get_content [] ps ia ac =
        .error (.valueError "Multi-resource classes need specific resource selection".data)) :=
  ⟨fun _ _ => rfl, fun _ _ _ => rfl⟩
